import Mathlib

/-!
Verification development for the GNOME At A Glance extension
(`extension.js`, `calendar-integration.js` variant, `meeting-assistant.js`).

JavaScript strings are modeled as `List Char` (`JSStr`); string literals
appear as `"...".data`.  JavaScript `Date` values produced by the ICS parser
are modeled by `LocalDateTime` (the component arguments handed to
`new Date(y, m, d, ...)`, month 0-based as in JS; out-of-range component
normalization performed by JS `Date` is not modeled — all claim instances
use in-range components), with `none : JSDate` standing for Invalid Date.
Timestamps compared numerically (`new Date(event.start)` in the
filter/sort/arbiter code) are modeled as `Int` milliseconds.
-/

namespace AtAGlance

abbrev JSStr := List Char

/-- Model of JavaScript `String.prototype.toLowerCase` (ASCII range, which
covers every keyword the source tests for). -/
def jsLower (s : JSStr) : JSStr := s.map Char.toLower

/-- Model of JavaScript `String.prototype.includes` (substring containment). -/
def jsIncludes (s sub : JSStr) : Bool := decide (sub <:+: s)

/-- Model of JavaScript `String.prototype.split(sep)` for a one-character
separator. -/
def jsSplit (sep : Char) : JSStr → List JSStr
  | [] => [[]]
  | c :: rest =>
    match jsSplit sep rest with
    | [] => [[c]]
    | h :: t => if c = sep then [] :: h :: t else (c :: h) :: t

/-- Model of JavaScript `Array.prototype.join(sep)` for a one-character
separator (used for `valueParts.join(":")`). -/
def jsJoin (sep : Char) : List JSStr → JSStr
  | [] => []
  | [x] => x
  | x :: y :: t => x ++ sep :: jsJoin sep (y :: t)

/-- Model of JavaScript `String.prototype.trim` (the source only ever trims
ASCII whitespace: spaces, tabs and CR/LF line ends). -/
def jsTrim (s : JSStr) : JSStr :=
  (((s.dropWhile Char.isWhitespace).reverse.dropWhile Char.isWhitespace).reverse)

/-- JS regex `\w` (the source regexes are not unicode-mode). -/
def isWordChar (c : Char) : Bool := c.isAlphanum || c == '_'

/-- A word boundary (`\b`) holds against a neighbouring character that is
absent (string edge) or not a word character. -/
def nonWordOpt : Option Char → Bool
  | none => true
  | some c => !isWordChar c

/-- One position of a `\b(kw1|kw2|...)\b` regex test: some keyword is a
prefix of the remaining input `s`, the character before the position
(`prev`, `none` at the string start) is a non-word character, and so is the
character right after the keyword. -/
def wbHere (kws : List JSStr) (prev : Option Char) (s : JSStr) : Bool :=
  kws.any fun kw =>
    kw.isPrefixOf s && nonWordOpt prev && nonWordOpt (s.drop kw.length).head?

/-- Full `\b(kw1|kw2|...)\b` regex test: try every position of the input. -/
def wbAux (kws : List JSStr) (prev : Option Char) : JSStr → Bool
  | [] => wbHere kws prev []
  | c :: rest => wbHere kws prev (c :: rest) || wbAux kws (some c) rest

/-- `re.test(s)` for the word-bounded alternation regexes of `EventFilter`. -/
def wbTest (kws : List JSStr) (s : JSStr) : Bool := wbAux kws none s

/-! ## EventFilter (calendar-integration.js, `EventFilter`) -/

/-- Alternatives of `this.holidayPattern`. -/
def holidayKeywords : List JSStr :=
  ["holiday", "christmas", "thanksgiving", "easter", "new year",
   "memorial day", "labor day", "independence day", "veterans day"].map
    String.data

/-- Alternatives of `this.birthdayPattern`. -/
def birthdayKeywords : List JSStr :=
  ["birthday", "born", "b-day", "bday"].map String.data

/-- Alternatives of `this.anniversaryPattern`. -/
def anniversaryKeywords : List JSStr :=
  ["anniversary", "wedding", "married"].map String.data

/-- All alternatives of the three exclusion regexes together. -/
def exclusionKeywords : List JSStr :=
  holidayKeywords ++ birthdayKeywords ++ anniversaryKeywords

/-- A collected event as consumed by `EventFilter` and
`_filterAndProcessEvents`: `title`/`description` as handed to the regexes
(the collectors always set `title`, so the `event.title || event.summary
|| ""` fallback reduces to `title`), `start` as the millisecond timestamp
of `new Date(event.start)`, and the acquisition-tier `confidence`
(1 for the Calendar-Server tier, 4/5 for ICS-parsed events).  Fields the
filter/sort code never reads are omitted. -/
structure FEvent where
  title : String
  description : String
  start : Int
  confidence : ℚ
  deriving DecidableEq

/-- The lowercased `` `${title} ${description}` `` text the filter regexes run
on. -/
def eventText (e : FEvent) : JSStr :=
  jsLower (e.title.data ++ ' ' :: e.description.data)

/-- `EventFilter.shouldExclude`: true when the holiday, birthday or
anniversary pattern matches the combined lowercased text. -/
def shouldExclude (e : FEvent) : Bool :=
  wbTest holidayKeywords (eventText e) ||
  wbTest birthdayKeywords (eventText e) ||
  wbTest anniversaryKeywords (eventText e)

/-! ## CalendarDataCollector: collection and filter/sort pipeline -/

/-- `_collectCalendarData`: the Calendar-Server tier result is taken first;
the SQLite tier runs (and is appended to the empty list) only when the
first tier yielded zero events.  A tier that throws contributes the empty
list.  There is no third step in this function. -/
def collectCalendarData {α : Type} (serverEvents sqliteEvents : List α) :
    List α :=
  if serverEvents.isEmpty then sqliteEvents else serverEvents

/-- Spec-modelled variant of the acquisition chain as §4.3 of the spec
describes it (three tiers, the flat-file export scanned when the first two
both yield nothing).  Used only to contrast with `collectCalendarData`,
which has no flat-file step. -/
def collectCalendarDataSpec {α : Type}
    (serverEvents sqliteEvents flatFileEvents : List α) : List α :=
  if ¬serverEvents.isEmpty then serverEvents
  else if ¬sqliteEvents.isEmpty then sqliteEvents
  else flatFileEvents

/-- One day in milliseconds, as the literal `24*60*60*1000` in the sort
comparator. -/
def dayMs : Int := 86400000

/-- The comparator passed to `.sort` in `_filterAndProcessEvents`.
`today` is the local-midnight timestamp `new Date(y, m, d)` and `tomorrow`
the next local midnight (both computed from `new Date()` by the source;
they are parameters here because local-calendar arithmetic is
environment-dependent). -/
def eventCompare (today tomorrow : Int) (a b : FEvent) : Int :=
  if (today ≤ a.start ∧ a.start < tomorrow) ∧
      ¬(today ≤ b.start ∧ b.start < tomorrow) then -1
  else if (today ≤ b.start ∧ b.start < tomorrow) ∧
      ¬(today ≤ a.start ∧ a.start < tomorrow) then 1
  else if (tomorrow ≤ a.start ∧ a.start < tomorrow + dayMs) ∧
      ¬(tomorrow ≤ b.start ∧ b.start < tomorrow + dayMs) ∧
      ¬(today ≤ b.start ∧ b.start < tomorrow) then -1
  else if (tomorrow ≤ b.start ∧ b.start < tomorrow + dayMs) ∧
      ¬(tomorrow ≤ a.start ∧ a.start < tomorrow + dayMs) ∧
      ¬(today ≤ a.start ∧ a.start < tomorrow) then 1
  else a.start - b.start

/-- `a` sorts no later than `b`: the comparator is non-positive. -/
def eventLE (today tomorrow : Int) (a b : FEvent) : Bool :=
  decide (eventCompare today tomorrow a b ≤ 0)

/-- `_filterAndProcessEvents`: drop excluded events, drop events starting
before local midnight today, sort with `eventCompare`, keep the first 15.
(JS `Array.prototype.sort` with a consistent comparator is modeled by
stable `mergeSort` on the corresponding total preorder.) -/
def filterAndProcessEvents (today tomorrow : Int) (events : List FEvent) :
    List FEvent :=
  ((((events.filter fun e => !shouldExclude e).filter
        fun e => decide (today ≤ e.start)).mergeSort
      (eventLE today tomorrow)).take 15)

/-- Day bucket used by the comparator: `0` for events today, `1` for events
tomorrow, `2` for the rest. -/
def bucketIdx (today tomorrow : Int) (e : FEvent) : Nat :=
  if today ≤ e.start ∧ e.start < tomorrow then 0
  else if tomorrow ≤ e.start ∧ e.start < tomorrow + dayMs then 1
  else 2

/-! ## ICS parsing (calendar-integration.js, `_parseICSContent`,
`_processICSEvent`, `_parseICSDateTime`, `_readEvolutionICS`) -/

/-- The component arguments of a JS `new Date(year, month, day, hour,
minute, second)` call: month 0-based.  `new Date()` (the current clock) is
passed around as a value of this type. -/
structure LocalDateTime where
  year : Int
  month : Int
  day : Int
  hour : Int
  minute : Int
  second : Int
  deriving DecidableEq

/-- A JS `Date`: `none` models Invalid Date (some `parseInt` gave `NaN`). -/
abbrev JSDate := Option LocalDateTime

/-- Numeric value of a digit string. -/
def digitsVal (s : JSStr) : Int :=
  s.foldl (fun a c => a * 10 + ((c.toNat : Int) - ('0'.toNat : Int))) 0

/-- Model of JS `parseInt` on the substrings the date parser extracts:
the value of the leading digit run, `none` (`NaN`) when there is none. -/
def parseIntJS (s : JSStr) : Option Int :=
  let ds := s.takeWhile Char.isDigit
  if ds.isEmpty then none else some (digitsVal ds)

/-- `new Date(y, m, d)` with possibly-`NaN` components. -/
def mkJSDate3 (y m d : Option Int) : JSDate :=
  match y, m, d with
  | some y, some m, some d => some ⟨y, m, d, 0, 0, 0⟩
  | _, _, _ => none

/-- `new Date(y, m, d, hh, mm, ss)` with possibly-`NaN` components (the
seconds argument is already defaulted by `|| 0` in the source). -/
def mkJSDate6 (y m d hh mm : Option Int) (ss : Int) : JSDate :=
  match y, m, d, hh, mm with
  | some y, some m, some d, some hh, some mm => some ⟨y, m, d, hh, mm, ss⟩
  | _, _, _, _, _ => none

/-- `_parseICSDateTime`: 8-character values become `new Date(y, m-1, d)`;
values containing `T` are stripped of `T`/`Z` and parsed positionally;
anything else falls back to the current clock `now`. -/
def parseICSDateTime (now : LocalDateTime) (s : JSStr) : JSDate :=
  if s.length = 8 then
    mkJSDate3 (parseIntJS (s.take 4))
      ((parseIntJS ((s.drop 4).take 2)).map (· - 1))
      (parseIntJS ((s.drop 6).take 2))
  else if s.contains 'T' then
    let dt := s.filter fun c => !(c == 'T' || c == 'Z')
    mkJSDate6 (parseIntJS (dt.take 4))
      ((parseIntJS ((dt.drop 4).take 2)).map (· - 1))
      (parseIntJS ((dt.drop 6).take 2))
      (parseIntJS ((dt.drop 8).take 2))
      (parseIntJS ((dt.drop 10).take 2))
      ((parseIntJS ((dt.drop 12).take 2)).getD 0)
  else some now

/-- The raw `currentEvent` record `_parseICSContent` accumulates: a field is
`none` until its `KEY:VALUE` line has been seen. -/
structure ICSRecord where
  summary : Option JSStr := none
  description : Option JSStr := none
  dtstart : Option JSStr := none
  dtend : Option JSStr := none
  location : Option JSStr := none
  uid : Option JSStr := none
  deriving DecidableEq

/-- JS truthiness of a possibly-missing string field (absent and empty are
both falsy). -/
def truthy : Option JSStr → Bool
  | none => false
  | some l => !l.isEmpty

/-- The normalized event `_processICSEvent` returns.  `id` is `none` when
the `uid || event_<Date.now()>` fallback would generate a fresh id; the
derived `timeFeatures` block (isToday/minutesUntil relative to `now`) is
not consumed by any claim and is omitted. -/
structure ParsedEvent where
  id : Option JSStr
  title : JSStr
  description : JSStr
  startTime : JSDate
  endTime : JSDate
  location : Option JSStr
  isAllDay : Bool
  confidence : ℚ
  deriving DecidableEq

/-- `_processICSEvent`: parse `dtstart` and `dtend || dtstart`, flag
`isAllDay` exactly when the raw start value has 8 characters. -/
def processICSEvent (now : LocalDateTime) (r : ICSRecord) : ParsedEvent :=
  let ds := r.dtstart.getD []
  let de := match r.dtend with
    | some t => if t.isEmpty then ds else t
    | none => ds
  { id := if truthy r.uid then r.uid else none
    title := r.summary.getD []
    description := r.description.getD []
    startTime := parseICSDateTime now ds
    endTime := parseICSDateTime now de
    location := r.location
    isAllDay := ds.length = 8
    confidence := 4/5 }

/-- The `KEY:VALUE` branch of `_parseICSContent`'s line loop: split on `:`,
strip regex-style parameters from the key at the first `;`, and store the
recognized properties. -/
def applyKV (r : ICSRecord) (line : JSStr) : ICSRecord :=
  match jsSplit ':' line with
  | [] => r
  | keyPart :: valueParts =>
    if valueParts.isEmpty then r
    else
      let value := jsJoin ':' valueParts
      let key := (jsSplit ';' keyPart).headD []
      if key = "SUMMARY".data then { r with summary := some value }
      else if key = "DESCRIPTION".data then { r with description := some value }
      else if key = "DTSTART".data then { r with dtstart := some value }
      else if key = "DTEND".data then { r with dtend := some value }
      else if key = "LOCATION".data then { r with location := some value }
      else if key = "UID".data then { r with uid := some value }
      else r

/-- One trimmed line of `_parseICSContent`'s loop over the state
`(events so far, current event record)`. -/
def stepLine (now : LocalDateTime)
    (st : List ParsedEvent × Option ICSRecord) (line : JSStr) :
    List ParsedEvent × Option ICSRecord :=
  if line = "BEGIN:VEVENT".data then (st.1, some {})
  else if line = "END:VEVENT".data then
    match st.2 with
    | some r =>
      (if truthy r.summary && truthy r.dtstart
        then st.1 ++ [processICSEvent now r] else st.1, none)
    | none => st
  else
    match st.2 with
    | some r =>
      if line.contains ':' then (st.1, some (applyKV r line)) else st
    | none => st

/-- `_parseICSContent` after line splitting and trimming. -/
def parseICSContentLines (now : LocalDateTime) (lines : List JSStr) :
    List ParsedEvent :=
  (lines.foldl (stepLine now) ([], none)).1

/-- `_parseICSContent`: split the blob on newlines, trim each line, run the
`BEGIN:VEVENT`/`END:VEVENT` state machine. -/
def parseICSContent (now : LocalDateTime) (ics : JSStr) : List ParsedEvent :=
  parseICSContentLines now ((jsSplit '\n' ics).map jsTrim)

/-- `_readEvolutionICS`: parse the Evolution flat-file calendar export when
the file exists and is readable (`contents = some blob`), the empty list
otherwise.  No caller in the source ever invokes this function. -/
def readEvolutionICS (now : LocalDateTime) (contents : Option JSStr) :
    List ParsedEvent :=
  match contents with
  | none => []
  | some blob => parseICSContent now blob

/-! ## ClaudeRateLimit (extension.js) -/

/-- The persisted `claude-usage.json` record. -/
structure UsageRecord where
  date : String
  requests : Int
  insights : Int
  prioritization : Int
  deriving DecidableEq

/-- `this.maxDailyRequests` as set by the constructor. -/
def maxDailyRequests : Int := 100

/-- The zeroed usage record stamped with today, as produced both on a date
change and on any read failure. -/
def zeroUsage (today : String) : UsageRecord :=
  { date := today, requests := 0, insights := 0, prioritization := 0 }

/-- `getUsageData`: `stored` is the parsed persisted record (`none` when the
file is missing, unreadable or unparsable); a record stamped with a
different day is replaced by the zeroed record. -/
def getUsageData (stored : Option UsageRecord) (today : String) :
    UsageRecord :=
  match stored with
  | some d => if d.date ≠ today then zeroUsage today else d
  | none => zeroUsage today

/-- `canMakeRequest` (the `type` argument only affects logging):
false exactly when no requests remain out of `maxDailyRequests`. -/
def canMakeRequest (stored : Option UsageRecord) (today : String) : Bool :=
  let usage := getUsageData stored today
  let remaining := maxDailyRequests - usage.requests
  if remaining ≤ 0 then false else true

/-! ## Priority arbiter (extension.js, `_getMostUrgentDisplay` /
`_getFallbackDisplay`).  Display strings are produced as `JSStr`. -/

/-- `data.system.battery`: the `/sys` capacity as a number, or the
placeholder strings `N/A` / `Error` (a string never compares `< 20`
in JS, so both placeholders behave alike in the battery check). -/
inductive BatteryVal where
  | na : BatteryVal
  | err : BatteryVal
  | num : Int → BatteryVal
  deriving DecidableEq

/-- A calendar entry as the arbiter reads it: `start` is the timestamp of
`new Date(nextEvent.start)`; `location` is `none` for JS `null`. -/
structure CalEvent where
  title : JSStr
  start : Int
  location : Option JSStr
  deriving DecidableEq

structure TaskItem where
  title : JSStr
  priority : JSStr
  deriving DecidableEq

/-- `data.weather`: `temp` is the already-interpolated text of the `temp`
field (a number renders as its decimal digits, the placeholder as `--`). -/
structure WeatherInfo where
  temp : JSStr
  condition : JSStr
  deriving DecidableEq

structure SystemInfo where
  battery : BatteryVal
  nixosIssues : Int
  nixosStatus : JSStr
  deriving DecidableEq

/-- The joined per-cycle data record the arbiter consumes. -/
structure DisplayData where
  calendar : List CalEvent
  tasks : List TaskItem
  weather : WeatherInfo
  system : SystemInfo

/-- Decimal rendering of a JS number, as template-literal interpolation. -/
def jsNum (n : Int) : JSStr := (toString n).data

/-- `Math.floor((startTime - now) / (1000 * 60))` on millisecond
timestamps: floor division. -/
def minutesUntil (now start : Int) : Int := (start - now).fdiv 60000

/-- The condition-keyword-to-icon chain of the weather fallback branch. -/
def weatherIcon (condition : JSStr) : JSStr :=
  if jsIncludes condition "Thunder".data then "⛈️".data
  else if jsIncludes condition "Rain".data then "🌧️".data
  else if jsIncludes condition "Snow".data then "🌨️".data
  else if jsIncludes condition "Fog".data then "🌫️".data
  else if jsIncludes condition "Cloud".data then "☁️".data
  else if jsIncludes condition "Clear".data ||
      jsIncludes condition "Sunny".data then "☀️".data
  else "⛅".data

/-- The final weather line `` `${weatherIcon} ${temp}°F ${condition}` ``. -/
def weatherLine (w : WeatherInfo) : JSStr :=
  weatherIcon w.condition ++ ' ' :: w.temp ++ "°F ".data ++ w.condition

/-- JS truthiness of `nextEvent.location` (null or empty string falsy). -/
def locTruthy : Option JSStr → Bool
  | none => false
  | some l => !l.isEmpty

/-- `nextEvent.location && nextEvent.location.toLowerCase()
.includes('virtual')`. -/
def locationVirtual : Option JSStr → Bool
  | none => false
  | some l => jsIncludes (jsLower l) "virtual".data

/-- `_getFallbackDisplay`, last branch: the weather line. -/
def fallbackWeather (data : DisplayData) : JSStr :=
  weatherLine data.weather

/-- `_getFallbackDisplay` after the medium-task branch: an event later
today (`startTime.toDateString() === now.toDateString()`, modeled by the
environment-supplied local-day predicate `sameDay`). -/
def fallbackTodayEvent (timeFmt : Int → JSStr) (sameDay : Int → Int → Bool)
    (now : Int) (data : DisplayData) : JSStr :=
  match data.calendar.head? with
  | some ev =>
    if sameDay ev.start now then
      "📅 ".data ++ ev.title ++ " @ ".data ++ timeFmt ev.start
    else fallbackWeather data
  | none => fallbackWeather data

/-- `_getFallbackDisplay` after the four-hour branch: first medium-priority
task with a `+N` suffix. -/
def fallbackMediumTasks (timeFmt : Int → JSStr) (sameDay : Int → Int → Bool)
    (now : Int) (data : DisplayData) : JSStr :=
  let mediumTasks := data.tasks.filter fun t => t.priority == "medium".data
  match mediumTasks with
  | first :: rest =>
    let suffix := if rest.length + 1 > 1
      then " (+".data ++ jsNum rest.length ++ ")".data else []
    "📋 ".data ++ first.title ++ suffix
  | [] => fallbackTodayEvent timeFmt sameDay now data

/-- `_getFallbackDisplay` after the urgent-task branch: an event within the
next four hours, framed by its location kind. -/
def fallbackFourHour (timeFmt : Int → JSStr) (sameDay : Int → Int → Bool)
    (now : Int) (data : DisplayData) : JSStr :=
  match data.calendar.head? with
  | some ev =>
    if minutesUntil now ev.start ≤ 240 then
      if locTruthy ev.location && locationVirtual ev.location then
        "🎥 ".data ++ ev.title ++ " @ ".data ++ timeFmt ev.start
      else if locTruthy ev.location then
        "📍 ".data ++ ev.title ++ " @ ".data ++ timeFmt ev.start
      else
        "📅 ".data ++ ev.title ++ " @ ".data ++ timeFmt ev.start
    else fallbackMediumTasks timeFmt sameDay now data
  | none => fallbackMediumTasks timeFmt sameDay now data

/-- `_getFallbackDisplay` after the imminent-event branch: first
high-priority task, icon and suffix depending on how many there are. -/
def fallbackUrgentTasks (timeFmt : Int → JSStr) (sameDay : Int → Int → Bool)
    (now : Int) (data : DisplayData) : JSStr :=
  let urgentTasks := data.tasks.filter fun t => t.priority == "high".data
  match urgentTasks with
  | first :: rest =>
    let icon := if rest.length + 1 > 1 then "🎯".data else "⚡".data
    let suffix := if rest.length + 1 > 1
      then " (+".data ++ jsNum rest.length ++ ")".data else []
    icon ++ ' ' :: first.title ++ suffix
  | [] => fallbackFourHour timeFmt sameDay now data

/-- `_getFallbackDisplay`: the deterministic fallback ladder.  `timeFmt`
models `toLocaleTimeString` and `sameDay` the `toDateString` equality with
now, both locale/timezone collaborators. -/
def getFallbackDisplay (timeFmt : Int → JSStr) (sameDay : Int → Int → Bool)
    (now : Int) (data : DisplayData) : JSStr :=
  match data.calendar.head? with
  | some ev =>
    let mu := minutesUntil now ev.start
    if mu ≤ 0 then "🚨 ".data ++ ev.title ++ " starting".data
    else if mu ≤ 15 then
      "🚨 ".data ++ ev.title ++ " in ".data ++ jsNum mu ++ "min".data
    else fallbackUrgentTasks timeFmt sameDay now data
  | none => fallbackUrgentTasks timeFmt sameDay now data

/-- `data.system.battery !== 'N/A' && data.system.battery < 20` (a string
value such as `Error` compares `NaN < 20 === false`). -/
def lowBatteryOf : BatteryVal → Bool
  | .num n => decide (n < 20)
  | _ => false

/-- `_getMostUrgentDisplay`: critical battery/system checks first, then the
AI result (`ai = none` models a thrown or null result, an empty string is
falsy and also falls through), then the fallback ladder. -/
def getMostUrgentDisplay (ai : Option JSStr) (timeFmt : Int → JSStr)
    (sameDay : Int → Int → Bool) (now : Int) (data : DisplayData) : JSStr :=
  if lowBatteryOf data.system.battery then
    match data.system.battery with
    | .num n => "🔋 ".data ++ jsNum n ++ "% battery".data
    | _ => []
  else if data.system.nixosIssues > 0 then
    "⚠️ ".data ++ data.system.nixosStatus
  else
    match ai with
    | some s =>
      if s.isEmpty then getFallbackDisplay timeFmt sameDay now data else s
    | none => getFallbackDisplay timeFmt sameDay now data

/-! ## MeetingAssistant (meeting-assistant.js) -/

/-- One preparation task `{task, type, priority}` (the optional `url` field
of document tasks is folded into `task` text and not modeled separately). -/
structure PrepTask where
  task : JSStr
  ptype : JSStr
  priority : JSStr
  deriving DecidableEq

/-- The fixed classification set of `detectMeetingType`. -/
inductive MeetingType where
  | standup | oneOnOne | interview | allHands | presentation
  | review | client | general
  deriving DecidableEq

/-- `detectMeetingType` over the lowercased `` `${title} ${description}` ``
text. -/
def detectMeetingType (title description : JSStr) : MeetingType :=
  let text := jsLower (title ++ ' ' :: description)
  if jsIncludes text "standup".data || jsIncludes text "daily".data then
    .standup
  else if jsIncludes text "1:1".data ||
      jsIncludes text "one-on-one".data then .oneOnOne
  else if jsIncludes text "interview".data then .interview
  else if jsIncludes text "all-hands".data ||
      jsIncludes text "town hall".data then .allHands
  else if jsIncludes text "demo".data ||
      jsIncludes text "presentation".data then .presentation
  else if jsIncludes text "review".data then .review
  else if jsIncludes text "client".data ||
      jsIncludes text "customer".data then .client
  else .general

/-- The `defaultTasks` object literal of `getDefaultPreparationTasks`:
`none` for the meeting types that have no key in it (`review`,
`all-hands`). -/
def defaultTasksMap : MeetingType → Option (List PrepTask)
  | .standup => some
    [⟨"Review yesterday's work progress".data, "preparation".data, "high".data⟩,
     ⟨"Prepare today's priorities".data, "preparation".data, "high".data⟩]
  | .oneOnOne => some
    [⟨"Review recent work and feedback".data, "preparation".data, "medium".data⟩,
     ⟨"Prepare discussion points".data, "preparation".data, "medium".data⟩]
  | .interview => some
    [⟨"Research company and role".data, "preparation".data, "high".data⟩,
     ⟨"Prepare questions to ask".data, "preparation".data, "high".data⟩,
     ⟨"Review resume and examples".data, "preparation".data, "high".data⟩]
  | .presentation => some
    [⟨"Test slides and technical setup".data, "preparation".data, "high".data⟩,
     ⟨"Prepare for Q&A session".data, "preparation".data, "medium".data⟩]
  | .client => some
    [⟨"Review client account history".data, "preparation".data, "high".data⟩,
     ⟨"Prepare project updates".data, "preparation".data, "medium".data⟩]
  | .general => some
    [⟨"Review meeting agenda".data, "preparation".data, "medium".data⟩]
  | _ => none

/-- `getDefaultPreparationTasks`:
`defaultTasks[meetingType] || defaultTasks['general']`. -/
def getDefaultPreparationTasks (mt : MeetingType) : List PrepTask :=
  match defaultTasksMap mt with
  | some tasks => tasks
  | none =>
    [⟨"Review meeting agenda".data, "preparation".data, "medium".data⟩]

/-- `generatePreparationTasks`: the line loop over the event text collects
keyword-matched lines and document URLs into `extractedTasks` (regex
driven; passed here as a parameter covering every possible yield of that
loop), then the type-specific default tasks are appended and the list is
capped at 5. -/
def generatePreparationTasks (extractedTasks : List PrepTask)
    (title description : JSStr) : List PrepTask :=
  (extractedTasks ++
      getDefaultPreparationTasks (detectMeetingType title description)).take 5

/-- The `preparationTasks`/`hasPreparation` pair of the context object
built by `generateMeetingContext` (the 15-minute cache only replays
previously built contexts and is not modeled). -/
structure MeetingContextM where
  preparationTasks : List PrepTask
  hasPreparation : Bool
  deriving DecidableEq

/-- `generateMeetingContext`, restricted to the fields the claim is about:
`hasPreparation := preparationTasks.length > 0`. -/
def generateMeetingContext (extractedTasks : List PrepTask)
    (title description : JSStr) : MeetingContextM :=
  let pt := generatePreparationTasks extractedTasks title description
  { preparationTasks := pt, hasPreparation := decide (pt.length > 0) }

/-! ## Statement-level predicates -/

/-- `s` matches the word-bounded alternation of the keywords `kws`
(the declarative counterpart of `wbTest`): some keyword occurs in `s`
flanked by string edges or non-word characters. -/
def ExistsWBMatch (kws : List JSStr) (s : JSStr) : Prop :=
  ∃ kw ∈ kws, ∃ pre post, s = pre ++ kw ++ post ∧
    nonWordOpt pre.getLast? = true ∧ nonWordOpt post.head? = true

/-- The `(title, start)` merge key of the spec, as a test on events. -/
def keyIs (t : String) (ts : Int) (x : FEvent) : Bool :=
  decide (x.title = t ∧ x.start = ts)

/-- `new Date(y, m-1, d)` for a human (1-based) month `m`: local midnight
of the day `y-m-d`. -/
def localMidnight (y m d : Int) : LocalDateTime :=
  ⟨y, m - 1, d, 0, 0, 0⟩

/-! ## C6: daily quota check -/

/-- C6: `canMakeRequest` returns false exactly when the persisted record is
stamped with the current date and its `requests` count has reached
`maxDailyRequests`; a record stamped with a different date (the first call
on a new day, even after prior usage reached the limit) is read back as the
zeroed record and the call is permitted. -/
theorem canMakeRequest_false_iff (stored : Option UsageRecord)
    (today : String) :
    (canMakeRequest stored today = false ↔
      ∃ d, stored = some d ∧ d.date = today ∧
        maxDailyRequests ≤ d.requests) ∧
    (∀ d, stored = some d → d.date ≠ today →
      getUsageData stored today = zeroUsage today) := by
  refine ⟨?_, ?_⟩
  case refine_2 =>
    rintro d rfl hne
    simp [getUsageData, hne]
  cases stored with
  | none =>
    simp [canMakeRequest, getUsageData, zeroUsage, maxDailyRequests]
  | some d =>
    simp only [canMakeRequest, getUsageData, maxDailyRequests]
    by_cases hdate : d.date = today
    · simp only [hdate, ne_eq, not_true_eq_false, if_false, Option.some.injEq]
      constructor
      · intro h
        refine ⟨d, rfl, hdate, ?_⟩
        by_contra hlt
        push_neg at hlt
        rw [if_neg (by omega)] at h
        exact Bool.true_eq_false.mp h
      · rintro ⟨d2, hd2, -, hge⟩
        cases hd2
        rw [if_pos (by omega)]
    · simp only [hdate, ne_eq, not_false_eq_true, if_true, zeroUsage]
      norm_num
      intro h
      exact absurd h hdate

/-- C6 witness: a record that reached the limit yesterday is treated as
reset today, and the request is permitted. -/
theorem canMakeRequest_false_iff_witness :
    getUsageData (some ⟨"Sun Oct 05 2025", 100, 60, 40⟩)
        "Mon Oct 06 2025" = zeroUsage "Mon Oct 06 2025" ∧
    canMakeRequest (some ⟨"Sun Oct 05 2025", 100, 60, 40⟩)
        "Mon Oct 06 2025" = true := by
  constructor
  · exact (canMakeRequest_false_iff
      (some ⟨"Sun Oct 05 2025", 100, 60, 40⟩) "Mon Oct 06 2025").2
      ⟨"Sun Oct 05 2025", 100, 60, 40⟩ rfl (by decide)
  · have h := (canMakeRequest_false_iff
      (some ⟨"Sun Oct 05 2025", 100, 60, 40⟩) "Mon Oct 06 2025").1
    refine eq_true_of_ne_false fun hf => ?_
    obtain ⟨d, hd, hdate, -⟩ := h.mp hf
    cases hd
    exact (by decide : ("Sun Oct 05 2025" : String) ≠ "Mon Oct 06 2025") hdate

/-! ## C9: preparation tasks are never empty and capped at 5 -/

theorem getDefaultPreparationTasks_ne_nil (mt : MeetingType) :
    getDefaultPreparationTasks mt ≠ [] := by
  cases mt <;> simp [getDefaultPreparationTasks, defaultTasksMap]

/-- C9: for every event (any title/description, and any yield of the
keyword/URL extraction loop), the generated context has a non-empty
`preparationTasks` list of at most 5 entries, so `hasPreparation` is
always true. -/
theorem generateMeetingContext_hasPreparation
    (extractedTasks : List PrepTask) (title description : JSStr) :
    (generateMeetingContext extractedTasks title description).preparationTasks
        ≠ [] ∧
    (generateMeetingContext extractedTasks title
        description).preparationTasks.length ≤ 5 ∧
    (generateMeetingContext extractedTasks title description).hasPreparation
        = true := by
  have hdef := getDefaultPreparationTasks_ne_nil
    (detectMeetingType title description)
  have hne : extractedTasks ++
      getDefaultPreparationTasks (detectMeetingType title description)
      ≠ [] := by
    intro h
    rcases List.append_eq_nil.mp h with ⟨-, h2⟩
    exact hdef h2
  have hlist : generatePreparationTasks extractedTasks title description ≠ []
      := by
    simp only [generatePreparationTasks, ne_eq, List.take_eq_nil_iff]
    push_neg
    exact ⟨by omega, hne⟩
  refine ⟨hlist, ?_, ?_⟩
  · exact List.length_take_le 5 _
  · simp only [generateMeetingContext, decide_eq_true_eq]
    exact List.length_pos.mpr hlist

/-! ## C1: the weather fallback is total and non-empty -/

theorem weatherLine_ne_nil (w : WeatherInfo) : weatherLine w ≠ [] := by
  intro h
  have := congrArg List.length h
  simp only [weatherLine, List.length_append, List.length_cons,
    List.length_nil] at this
  omega

/-- C1: with no calendar events and no high- or medium-priority task,
`_getFallbackDisplay` reaches the weather branch and returns the weather
status line, which is a non-empty string for every weather value
(every condition string is mapped to some icon by the total if-chain). -/
theorem getFallbackDisplay_weather (timeFmt : Int → JSStr)
    (sameDay : Int → Int → Bool) (now : Int) (data : DisplayData)
    (hcal : data.calendar = [])
    (htasks : ∀ t ∈ data.tasks,
      t.priority ≠ "high".data ∧ t.priority ≠ "medium".data) :
    getFallbackDisplay timeFmt sameDay now data = weatherLine data.weather ∧
    weatherLine data.weather ≠ [] := by
  have hhigh : data.tasks.filter (fun t => t.priority == "high".data) = []
      := by
    rw [List.filter_eq_nil_iff]
    intro t ht
    simpa using (htasks t ht).1
  have hmed : data.tasks.filter (fun t => t.priority == "medium".data) = []
      := by
    rw [List.filter_eq_nil_iff]
    intro t ht
    simpa using (htasks t ht).2
  refine ⟨?_, weatherLine_ne_nil data.weather⟩
  rw [getFallbackDisplay, hcal]
  simp only [List.head?_nil]
  rw [fallbackUrgentTasks, hhigh]
  rw [fallbackFourHour, hcal]
  simp only [List.head?_nil]
  rw [fallbackMediumTasks, hmed]
  rw [fallbackTodayEvent, hcal]
  simp only [List.head?_nil]
  rfl

/-- C1 witness: all-empty / placeholder inputs. -/
theorem getFallbackDisplay_weather_witness :
    getFallbackDisplay (fun _ => []) (fun _ _ => false) 0
        ⟨[], [⟨"Set up integrations".data, "low".data⟩],
          ⟨"--".data, "N/A".data⟩, ⟨.na, 0, "OK".data⟩⟩ =
      weatherLine ⟨"--".data, "N/A".data⟩ ∧
    weatherLine ⟨"--".data, "N/A".data⟩ ≠ [] :=
  getFallbackDisplay_weather (fun _ => []) (fun _ _ => false) 0
    ⟨[], [⟨"Set up integrations".data, "low".data⟩],
      ⟨"--".data, "N/A".data⟩, ⟨.na, 0, "OK".data⟩⟩
    rfl (by decide)

/-! ## C2: the critical tier pre-empts everything -/

/-- C2: `_getMostUrgentDisplay` returns the battery-alert line whenever the
battery is a number below 20, regardless of the AI result, the calendar
(even an event starting within one minute), the tasks and the weather; and
with the battery not low, a positive `nixosIssues` count yields the
system-alert line before any other tier is consulted. -/
theorem getMostUrgentDisplay_critical (ai : Option JSStr)
    (timeFmt : Int → JSStr) (sameDay : Int → Int → Bool) (now : Int)
    (data : DisplayData) :
    (∀ n : Int, data.system.battery = .num n → n < 20 →
      getMostUrgentDisplay ai timeFmt sameDay now data =
        "🔋 ".data ++ jsNum n ++ "% battery".data) ∧
    (lowBatteryOf data.system.battery = false → 0 < data.system.nixosIssues →
      getMostUrgentDisplay ai timeFmt sameDay now data =
        "⚠️ ".data ++ data.system.nixosStatus) := by
  constructor
  · intro n hb hn
    rw [getMostUrgentDisplay.eq_def, hb]
    simp [lowBatteryOf, hn]
  · intro hb hi
    rw [getMostUrgentDisplay.eq_def]
    rw [if_neg (by simp [hb]), if_pos hi]

/-- C2 witness: battery at 15% with an event starting in half a minute, a
high-priority task, bad weather and an available AI answer still yields the
battery line; and with the battery reporting `N/A`, one failed service
yields the system-alert line. -/
theorem getMostUrgentDisplay_critical_witness :
    getMostUrgentDisplay (some "AI line".data) (fun _ => []) (fun _ _ => false)
        0 ⟨[⟨"Standup".data, 30000, none⟩],
          [⟨"Pay rent".data, "high".data⟩],
          ⟨"68".data, "Thunderstorm".data⟩,
          ⟨.num 15, 3, "3 failed services".data⟩⟩ =
      "🔋 ".data ++ jsNum 15 ++ "% battery".data ∧
    getMostUrgentDisplay (some "AI line".data) (fun _ => []) (fun _ _ => false)
        0 ⟨[⟨"Standup".data, 30000, none⟩], [],
          ⟨"68".data, "Thunderstorm".data⟩,
          ⟨.na, 1, "1 failed service".data⟩⟩ =
      "⚠️ ".data ++ "1 failed service".data :=
  ⟨(getMostUrgentDisplay_critical (some "AI line".data) (fun _ => [])
      (fun _ _ => false) 0
      ⟨[⟨"Standup".data, 30000, none⟩], [⟨"Pay rent".data, "high".data⟩],
        ⟨"68".data, "Thunderstorm".data⟩,
        ⟨.num 15, 3, "3 failed services".data⟩⟩).1 15 rfl (by decide),
    (getMostUrgentDisplay_critical (some "AI line".data) (fun _ => [])
      (fun _ _ => false) 0
      ⟨[⟨"Standup".data, 30000, none⟩], [],
        ⟨"68".data, "Thunderstorm".data⟩,
        ⟨.na, 1, "1 failed service".data⟩⟩).2 (by decide) (by decide)⟩

/-! ## C5: sort order of the filtered calendar list -/

/-- The sort comparator realizes the lexicographic order on
(day bucket, start time). -/
theorem eventLE_iff (today tomorrow : Int) (a b : FEvent) :
    eventLE today tomorrow a b = true ↔
      (bucketIdx today tomorrow a < bucketIdx today tomorrow b ∨
        (bucketIdx today tomorrow a = bucketIdx today tomorrow b ∧
          a.start ≤ b.start)) := by
  unfold eventLE eventCompare bucketIdx
  simp only [decide_eq_true_eq]
  by_cases hA0 : today ≤ a.start ∧ a.start < tomorrow <;>
    by_cases hB0 : today ≤ b.start ∧ b.start < tomorrow <;>
      by_cases hA1 : tomorrow ≤ a.start ∧ a.start < tomorrow + dayMs <;>
        by_cases hB1 : tomorrow ≤ b.start ∧ b.start < tomorrow + dayMs <;>
          simp only [hA0, hB0, hA1, hB1, not_true, not_false_iff, true_and,
            false_and, and_true, and_false, if_true, if_false,
            not_false_eq_true, not_true_eq_false, if_pos, if_neg] <;>
          omega

theorem eventLE_total (today tomorrow : Int) (a b : FEvent) :
    (eventLE today tomorrow a b || eventLE today tomorrow b a) = true := by
  by_cases h : eventLE today tomorrow a b = true
  · simp [h]
  · have h2 : eventLE today tomorrow b a = true := by
      rw [eventLE_iff]
      rw [eventLE_iff] at h
      push_neg at h
      omega
    simp [h2]

theorem eventLE_trans (today tomorrow : Int) (a b c : FEvent)
    (hab : eventLE today tomorrow a b = true)
    (hbc : eventLE today tomorrow b c = true) :
    eventLE today tomorrow a c = true := by
  rw [eventLE_iff] at hab hbc ⊢
  omega

/-- C5: the filtered calendar list is bucket-partitioned — every
today-bucket event precedes every tomorrow-bucket event, every
tomorrow-bucket event precedes the remaining events, within one bucket no
event with a strictly later start precedes one with an earlier start — and
the list is truncated to at most 15 events. -/
theorem filterAndProcessEvents_sorted (today tomorrow : Int)
    (events : List FEvent) :
    (filterAndProcessEvents today tomorrow events).Pairwise
      (fun a b => bucketIdx today tomorrow a ≤ bucketIdx today tomorrow b ∧
        (bucketIdx today tomorrow a = bucketIdx today tomorrow b →
          a.start ≤ b.start)) ∧
    (filterAndProcessEvents today tomorrow events).length ≤ 15 := by
  unfold filterAndProcessEvents
  constructor
  · have hsorted := List.sorted_mergeSort
      (eventLE_trans today tomorrow) (eventLE_total today tomorrow)
      ((events.filter fun e => !shouldExclude e).filter
        fun e => decide (today ≤ e.start))
    refine (List.Pairwise.sublist (List.take_sublist 15 _) hsorted).imp ?_
    intro a b hab
    rw [eventLE_iff] at hab
    omega
  · exact List.length_take_le 15 _

/-! ## C3: duplicate `(title, start)` keys across tiers -/

/-- C3 counterexample to the claim as stated: both tiers yield an event
with the identical key `("Christmas party", 5000)` and different
confidences (1 vs 4/5), yet the merged, filtered output contains zero
events with that key, not exactly one — the surviving tier-1 copy is
removed by the exclusion filter (no `(title, start)` dedup step exists in
`_collectCalendarData` or `_filterAndProcessEvents`; tier 2 is simply never
consulted when tier 1 yielded anything). -/
theorem collect_key_unique_cex :
    (filterAndProcessEvents 0 86400000
        (collectCalendarData [⟨"Christmas party", "", 5000, 1⟩]
          [⟨"Christmas party", "", 5000, 4/5⟩])).filter
        (keyIs "Christmas party" 5000) = [] := by
  have hcol : collectCalendarData [(⟨"Christmas party", "", 5000, 1⟩ : FEvent)]
      [⟨"Christmas party", "", 5000, 4/5⟩] =
      [⟨"Christmas party", "", 5000, 1⟩] := by
    simp [collectCalendarData]
  rw [hcol, filterAndProcessEvents]
  have hex : shouldExclude ⟨"Christmas party", "", 5000, 1⟩ = true := by
    decide
  simp [hex]

/-- C3 (amended): there is no dedup-by-key step; instead, acquisition
short-circuits.  When tier 1 yields exactly one event `e` with the key
`(t, ts)`, that event passes the exclusion and date filters, tier 1 fits
inside the 15-event cap, and tier 2 also yields an event with the same key
but lower confidence (as the hard-coded tier confidences 1 > 4/5 dictate),
the merged filtered output contains exactly one event with that key —
tier 1's copy, which is the higher-confidence one.  It is the copy of the
first non-empty tier regardless of confidence values; the spec's
"prefer higher confidence" coincides with this only because tier order and
confidence order agree in the source. -/
theorem collect_key_unique (today tomorrow : Int) (t1 t2 : List FEvent)
    (e e2 : FEvent) (t : String) (ts : Int)
    (huniq : t1.filter (keyIs t ts) = [e])
    (hlen : t1.length ≤ 15)
    (hkeep : shouldExclude e = false)
    (hdate : today ≤ e.start)
    (_he2 : e2 ∈ t2) (_hkey2 : keyIs t ts e2 = true)
    (_hconf : e2.confidence < e.confidence) :
    (filterAndProcessEvents today tomorrow
        (collectCalendarData t1 t2)).filter (keyIs t ts) = [e] := by
  have hmem : e ∈ t1 := by
    have : e ∈ t1.filter (keyIs t ts) := by rw [huniq]; exact List.mem_singleton.mpr rfl
    exact (List.mem_filter.mp this).1
  have ht1 : t1 ≠ [] := List.ne_nil_of_mem hmem
  have hcol : collectCalendarData t1 t2 = t1 := by
    unfold collectCalendarData
    rw [if_neg]
    simp [List.isEmpty_iff, ht1]
  rw [hcol]
  unfold filterAndProcessEvents
  set p : FEvent → Bool := fun x => !shouldExclude x with hp
  set q : FEvent → Bool := fun x => decide (today ≤ x.start) with hq
  have hL : ((t1.filter p).filter q).filter (keyIs t ts) = [e] := by
    rw [List.filter_filter, List.filter_filter]
    have hswap : t1.filter (fun a => keyIs t ts a && q a && p a) =
        (t1.filter (keyIs t ts)).filter (fun a => q a && p a) := by
      rw [List.filter_filter]
      exact List.filter_congr fun x _ => by
        cases hk : keyIs t ts x <;> cases hqx : q x <;> cases hpx : p x <;>
          simp [hk, hqx, hpx]
    rw [hswap, huniq]
    simp [hp, hq, hkeep, hdate]
  have hperm : (((t1.filter p).filter q).mergeSort
      (eventLE today tomorrow)).filter (keyIs t ts) =
      [e] := by
    have h1 := (List.mergeSort_perm ((t1.filter p).filter q)
      (eventLE today tomorrow)).filter (keyIs t ts)
    rw [hL] at h1
    exact List.perm_singleton.mp h1
  have hlen2 : (((t1.filter p).filter q).mergeSort
      (eventLE today tomorrow)).length ≤ 15 := by
    rw [(List.mergeSort_perm _ _).length_eq]
    calc ((t1.filter p).filter q).length
        ≤ (t1.filter p).length := List.length_filter_le _ _
      _ ≤ t1.length := List.length_filter_le _ _
      _ ≤ 15 := hlen
  rw [List.take_of_length_le hlen2, hperm]

/-- C3 witness for the amended theorem: a unique, unfiltered tier-1 copy
of the key `("Sync", 5000)` survives as the single key occurrence. -/
theorem collect_key_unique_witness :
    (filterAndProcessEvents 0 86400000
        (collectCalendarData [⟨"Sync", "", 5000, 1⟩]
          [⟨"Sync", "", 5000, 4/5⟩])).filter (keyIs "Sync" 5000) =
      [⟨"Sync", "", 5000, 1⟩] :=
  collect_key_unique 0 86400000 [⟨"Sync", "", 5000, 1⟩]
    [⟨"Sync", "", 5000, 4/5⟩] ⟨"Sync", "", 5000, 1⟩ ⟨"Sync", "", 5000, 4/5⟩
    "Sync" 5000 (by decide) (by decide) (by decide) (by decide)
    (List.mem_singleton.mpr rfl) (by decide) (by norm_num)

/-! ## C4: the acquisition chain has no flat-file tier -/

/-- C4 counterexample to the claim as stated: with both tiers yielding no
events and the Evolution flat-file export present and holding one parsable
event, the collection result is empty — the flat-file export is never
consulted by `_collectCalendarData` (`_readEvolutionICS` has no caller), so
its parsed contents are not included. -/
theorem collect_flatfile_cex :
    (readEvolutionICS ⟨2025, 5, 15, 10, 30, 0⟩
        (some ("BEGIN:VEVENT\nSUMMARY:Dentist\nDTSTART:20991231T120000\nEND:VEVENT").data)).length
      = 1 ∧
    collectCalendarData ([] : List ParsedEvent) [] = [] := by
  constructor
  · decide
  · rfl

/-- C4 (amended): acquisition tries exactly two tiers strictly in order —
the structured-store tier is consulted exactly when the live-broker tier
yielded zero events, and when both yield nothing the result is the empty
list (there is no third, flat-file step; `_readEvolutionICS` exists but is
dead code). -/
theorem collectCalendarData_tiers {α : Type} (t1 t2 : List α) :
    (t1 ≠ [] → collectCalendarData t1 t2 = t1) ∧
    (t1 = [] → collectCalendarData t1 t2 = t2) := by
  constructor
  · intro h
    unfold collectCalendarData
    rw [if_neg]
    simp [List.isEmpty_iff, h]
  · rintro rfl
    rfl

/-- C4 witness: a non-empty first tier wins; an empty first tier defers to
the second. -/
theorem collectCalendarData_tiers_witness :
    collectCalendarData ["a"] ["b"] = ["a"] ∧
    collectCalendarData ([] : List String) ["b"] = ["b"] :=
  ⟨(collectCalendarData_tiers ["a"] ["b"]).1 (by simp),
    (collectCalendarData_tiers [] ["b"]).2 rfl⟩

/-! ## C8: date-only start values -/

theorem parseIntJS_digits (s : JSStr) (hne : s ≠ [])
    (hd : ∀ c ∈ s, c.isDigit = true) :
    parseIntJS s = some (digitsVal s) := by
  unfold parseIntJS
  rw [List.takeWhile_eq_self_iff.mpr hd]
  simp [List.isEmpty_iff, hne]

/-- The 8-character branch of `_parseICSDateTime` on a digits-only value:
local midnight of the day the value spells. -/
theorem parseICSDateTime_date8 (now : LocalDateTime) (s : JSStr)
    (h8 : s.length = 8) (hd : ∀ c ∈ s, c.isDigit = true) :
    parseICSDateTime now s =
      some (localMidnight (digitsVal (s.take 4))
        (digitsVal ((s.drop 4).take 2)) (digitsVal ((s.drop 6).take 2))) := by
  have hsne : s ≠ [] := by
    intro h
    rw [h] at h8
    simp at h8
  have hdrop4 : s.drop 4 ≠ [] := by
    rw [ne_eq, List.drop_eq_nil_iff]
    omega
  have hdrop6 : s.drop 6 ≠ [] := by
    rw [ne_eq, List.drop_eq_nil_iff]
    omega
  have h1 : parseIntJS (s.take 4) = some (digitsVal (s.take 4)) :=
    parseIntJS_digits _ (by simp [List.take_eq_nil_iff, hsne])
      fun c hc => hd c (List.mem_of_mem_take hc)
  have h2 : parseIntJS ((s.drop 4).take 2) =
      some (digitsVal ((s.drop 4).take 2)) :=
    parseIntJS_digits _ (by simp [List.take_eq_nil_iff, hdrop4])
      fun c hc => hd c (List.mem_of_mem_drop (List.mem_of_mem_take hc))
  have h3 : parseIntJS ((s.drop 6).take 2) =
      some (digitsVal ((s.drop 6).take 2)) :=
    parseIntJS_digits _ (by simp [List.take_eq_nil_iff, hdrop6])
      fun c hc => hd c (List.mem_of_mem_drop (List.mem_of_mem_take hc))
  unfold parseICSDateTime
  rw [if_pos h8, h1, h2, h3]
  rfl

/-- C8 counterexample to the claim as stated: a raw record whose start
value is the date-only `20250101` but which carries no `DTEND` is parsed
with `end = start` (midnight opening the day), not with the
midnight-to-midnight end the claim requires. -/
theorem processICSEvent_allday_cex :
    (processICSEvent ⟨2025, 5, 15, 10, 30, 0⟩
        { summary := some "Trip".data,
          dtstart := some "20250101".data }).isAllDay = true ∧
    (processICSEvent ⟨2025, 5, 15, 10, 30, 0⟩
        { summary := some "Trip".data,
          dtstart := some "20250101".data }).startTime =
      some (localMidnight 2025 1 1) ∧
    (processICSEvent ⟨2025, 5, 15, 10, 30, 0⟩
        { summary := some "Trip".data,
          dtstart := some "20250101".data }).endTime =
      some (localMidnight 2025 1 1) ∧
    (processICSEvent ⟨2025, 5, 15, 10, 30, 0⟩
        { summary := some "Trip".data,
          dtstart := some "20250101".data }).endTime ≠
      some (localMidnight 2025 1 2) := by
  refine ⟨rfl, rfl, rfl, ?_⟩
  decide

/-- C8 (amended): a record with a date-only (8 digit) start value yields an
event whose `start` is local midnight of that day and whose `isAllDay` flag
is true; its `end` is local midnight of the day spelled by the record's own
`DTEND` value when one is present (date-only), and is equal to `start`
(not midnight-to-midnight) when the record has no `DTEND`. -/
theorem processICSEvent_allday (now : LocalDateTime) (r : ICSRecord)
    (s : JSStr) (hs : r.dtstart = some s) (h8 : s.length = 8)
    (hd : ∀ c ∈ s, c.isDigit = true) :
    (processICSEvent now r).startTime =
      some (localMidnight (digitsVal (s.take 4))
        (digitsVal ((s.drop 4).take 2)) (digitsVal ((s.drop 6).take 2))) ∧
    (processICSEvent now r).isAllDay = true ∧
    (r.dtend = none →
      (processICSEvent now r).endTime = (processICSEvent now r).startTime) ∧
    (∀ tEnd, r.dtend = some tEnd → tEnd ≠ [] → tEnd.length = 8 →
      (∀ c ∈ tEnd, c.isDigit = true) →
      (processICSEvent now r).endTime =
        some (localMidnight (digitsVal (tEnd.take 4))
          (digitsVal ((tEnd.drop 4).take 2))
          (digitsVal ((tEnd.drop 6).take 2)))) := by
  obtain ⟨rsum, rdesc, rds, rde, rloc, ruid⟩ := r
  dsimp only at hs
  subst hs
  refine ⟨?_, ?_, ?_, ?_⟩
  · exact parseICSDateTime_date8 now s h8 hd
  · simp only [processICSEvent, Option.getD_some]
    simp [h8]
  · intro hend
    dsimp only at hend
    subst hend
    rfl
  · intro tEnd hend hne hlen8 hdend
    dsimp only at hend
    subst hend
    have hstep : (processICSEvent now
        ⟨rsum, rdesc, some s, some tEnd, rloc, ruid⟩).endTime =
        parseICSDateTime now (if tEnd.isEmpty then s else tEnd) := rfl
    rw [hstep, if_neg (by simp [List.isEmpty_iff, hne])]
    exact parseICSDateTime_date8 now tEnd hlen8 hdend

/-- C8 witness: the record `SUMMARY:Trip, DTSTART:20250101,
DTEND:20250102` parses midnight-to-midnight with `isAllDay`. -/
theorem processICSEvent_allday_witness :
    (processICSEvent ⟨2025, 5, 15, 10, 30, 0⟩
        { summary := some "Trip".data, dtstart := some "20250101".data,
          dtend := some "20250102".data }).startTime =
      some (localMidnight 2025 1 1) ∧
    (processICSEvent ⟨2025, 5, 15, 10, 30, 0⟩
        { summary := some "Trip".data, dtstart := some "20250101".data,
          dtend := some "20250102".data }).isAllDay = true ∧
    (processICSEvent ⟨2025, 5, 15, 10, 30, 0⟩
        { summary := some "Trip".data, dtstart := some "20250101".data,
          dtend := some "20250102".data }).endTime =
      some (localMidnight 2025 1 2) := by
  have h := processICSEvent_allday ⟨2025, 5, 15, 10, 30, 0⟩
    { summary := some "Trip".data, dtstart := some "20250101".data,
      dtend := some "20250102".data } "20250101".data rfl (by decide)
    (by decide)
  refine ⟨?_, h.2.1, ?_⟩
  · rw [h.1]
    rfl
  · rw [h.2.2.2 "20250102".data rfl (by decide) (by decide) (by decide)]
    rfl

/-! ## C7: pattern-based exclusion -/

theorem wbHere_wbAux (kws : List JSStr) (prev : Option Char) (s : JSStr)
    (h : wbHere kws prev s = true) : wbAux kws prev s = true := by
  cases s with
  | nil => exact h
  | cons c rest =>
    unfold wbAux
    rw [h, Bool.true_or]

theorem getLast?_cons_or (c : Char) (pre : JSStr) (prev : Option Char) :
    ((c :: pre).getLast?).or prev = (pre.getLast?).or (some c) := by
  cases pre with
  | nil => simp
  | cons d t =>
    rw [List.getLast?_cons_cons]
    have hs : (d :: t).getLast?.isSome :=
      Option.isSome_iff_exists.mpr
        ⟨(d :: t).getLast (by simp), List.getLast?_eq_getLast _ _⟩
    obtain ⟨x, hx⟩ := Option.isSome_iff_exists.mp hs
    rw [hx]
    rfl

/-- A keyword occurrence flanked by non-word characters (or edges) makes
the word-bounded regex test succeed. -/
theorem wbAux_of_split (kws : List JSStr) (kw : JSStr) (hkw : kw ∈ kws)
    (pre post : JSStr) (prev : Option Char)
    (hb : nonWordOpt ((pre.getLast?).or prev) = true)
    (ha : nonWordOpt post.head? = true) :
    wbAux kws prev (pre ++ kw ++ post) = true := by
  induction pre generalizing prev with
  | nil =>
    apply wbHere_wbAux
    unfold wbHere
    rw [List.any_eq_true]
    refine ⟨kw, hkw, ?_⟩
    have hpre : kw.isPrefixOf (kw ++ post) = true :=
      List.isPrefixOf_iff_prefix.mpr (List.prefix_append kw post)
    have hprev : nonWordOpt prev = true := by
      simpa using hb
    simp only [List.nil_append, hpre, hprev, List.drop_left, ha,
      Bool.and_self]
  | cons c pre ih =>
    have hb2 : nonWordOpt ((pre.getLast?).or (some c)) = true := by
      rw [← getLast?_cons_or c pre prev]
      exact hb
    have hrec := ih (some c) hb2
    show (wbHere kws prev (c :: (pre ++ kw ++ post)) ||
      wbAux kws (some c) (pre ++ kw ++ post)) = true
    rw [hrec, Bool.or_true]

/-- The declarative match predicate implies the executable regex test. -/
theorem wbTest_of_match (kws : List JSStr) (s : JSStr)
    (h : ExistsWBMatch kws s) : wbTest kws s = true := by
  obtain ⟨kw, hkw, pre, post, rfl, hb, ha⟩ := h
  refine wbAux_of_split kws kw hkw pre post none ?_ ha
  rw [Option.or_none]
  exact hb

theorem existsWBMatch_append_right (kws : List JSStr) (s t : JSStr)
    (h : ExistsWBMatch kws s) (ht : nonWordOpt t.head? = true) :
    ExistsWBMatch kws (s ++ t) := by
  obtain ⟨kw, hkw, pre, post, rfl, hb, ha⟩ := h
  refine ⟨kw, hkw, pre, post ++ t, by simp, hb, ?_⟩
  cases post with
  | nil => simpa using ht
  | cons d r => simpa using ha

theorem existsWBMatch_append_left (kws : List JSStr) (s u : JSStr)
    (h : ExistsWBMatch kws s) (hu : nonWordOpt u.getLast? = true) :
    ExistsWBMatch kws (u ++ s) := by
  obtain ⟨kw, hkw, pre, post, rfl, hb, ha⟩ := h
  refine ⟨kw, hkw, u ++ pre, post, by simp, ?_, ha⟩
  rw [List.getLast?_append]
  cases hpre : pre.getLast? with
  | none =>
    rw [Option.none_or]
    exact hu
  | some x =>
    rw [hpre] at hb
    exact hb

theorem wbHere_append_kws (k1 k2 : List JSStr) (prev : Option Char)
    (s : JSStr) :
    wbHere (k1 ++ k2) prev s = (wbHere k1 prev s || wbHere k2 prev s) := by
  unfold wbHere
  rw [List.any_append]

theorem wbAux_append_kws (k1 k2 : List JSStr) (prev : Option Char)
    (s : JSStr) :
    wbAux (k1 ++ k2) prev s = (wbAux k1 prev s || wbAux k2 prev s) := by
  induction s generalizing prev with
  | nil => exact wbHere_append_kws k1 k2 prev []
  | cons c rest ih =>
    unfold wbAux
    rw [wbHere_append_kws, ih]
    cases wbHere k1 prev (c :: rest) <;>
      cases wbHere k2 prev (c :: rest) <;>
        cases wbAux k1 (some c) rest <;> cases wbAux k2 (some c) rest <;> rfl

theorem eventText_eq (e : FEvent) :
    eventText e =
      jsLower e.title.data ++ ' ' :: jsLower e.description.data := by
  unfold eventText jsLower
  rw [List.map_append, List.map_cons]
  rfl

/-- C7: an event whose title or description matches one of the holiday,
birthday or anniversary keywords (case-insensitively, word-boundary
flanked) is excluded — `shouldExclude` is true and the event never appears
in the filtered output, from whichever tier the event list came. -/
theorem eventFilter_excludes (today tomorrow : Int) (e : FEvent)
    (events : List FEvent) (_he : e ∈ events)
    (hm : ExistsWBMatch exclusionKeywords (jsLower e.title.data) ∨
      ExistsWBMatch exclusionKeywords (jsLower e.description.data)) :
    shouldExclude e = true ∧
      e ∉ filterAndProcessEvents today tomorrow events := by
  have htext : ExistsWBMatch exclusionKeywords (eventText e) := by
    rw [eventText_eq]
    rcases hm with h | h
    · exact existsWBMatch_append_right _ _ (' ' :: jsLower e.description.data)
        h rfl
    · have hsplit : jsLower e.title.data ++ ' ' :: jsLower e.description.data
          = (jsLower e.title.data ++ [' ']) ++ jsLower e.description.data := by
        simp
      rw [hsplit]
      refine existsWBMatch_append_left _ _ _ h ?_
      rw [List.getLast?_concat]
      rfl
  have hex : shouldExclude e = true := by
    have hw := wbTest_of_match _ _ htext
    unfold wbTest at hw
    unfold exclusionKeywords at hw
    rw [wbAux_append_kws, wbAux_append_kws] at hw
    unfold shouldExclude wbTest
    rcases Bool.or_eq_true_iff.mp hw with h12 | h3
    · rcases Bool.or_eq_true_iff.mp h12 with h1 | h2
      · rw [h1]
        rfl
      · rw [h2]
        simp
    · rw [h3]
      simp
  refine ⟨hex, ?_⟩
  intro hmem
  unfold filterAndProcessEvents at hmem
  have h1 := List.mem_of_mem_take hmem
  have h2 := (List.mergeSort_perm _ _).mem_iff.mp h1
  have h3 := (List.mem_filter.mp h2).1
  have h4 := (List.mem_filter.mp h3).2
  rw [hex] at h4
  simp at h4

/-- C7 witness: the event titled `Christmas party` matches the holiday
pattern and is excluded from the output. -/
theorem eventFilter_excludes_witness :
    shouldExclude ⟨"Christmas party", "Bring gifts", 5000, 1⟩ = true ∧
      (⟨"Christmas party", "Bring gifts", 5000, 1⟩ : FEvent) ∉
        filterAndProcessEvents 0 86400000
          [⟨"Christmas party", "Bring gifts", 5000, 1⟩] :=
  eventFilter_excludes 0 86400000 ⟨"Christmas party", "Bring gifts", 5000, 1⟩
    [⟨"Christmas party", "Bring gifts", 5000, 1⟩]
    (List.mem_singleton.mpr rfl)
    (Or.inl ⟨"christmas".data, by decide, [], " party".data, by decide,
      by decide, by decide⟩)

/-! ## C10: total datetime parsing, malformed records kept -/

theorem jsSplit_cons (sep c : Char) (rest : JSStr) :
    jsSplit sep (c :: rest) =
      match jsSplit sep rest with
      | [] => [[c]]
      | h :: t => if c = sep then [] :: h :: t else (c :: h) :: t := rfl

theorem jsSplit_ne_nil (sep : Char) (s : JSStr) : jsSplit sep s ≠ [] := by
  cases s with
  | nil => simp [jsSplit]
  | cons c rest =>
    rw [jsSplit_cons]
    cases hs : jsSplit sep rest with
    | nil => simp
    | cons h t => by_cases hc : c = sep <;> simp [hc]

theorem jsSplit_cons_sep_free (sep : Char) (A r : JSStr)
    (hA : ∀ c ∈ A, c ≠ sep) :
    jsSplit sep (A ++ sep :: r) = A :: jsSplit sep r := by
  induction A with
  | nil =>
    show jsSplit sep (sep :: r) = [] :: jsSplit sep r
    rw [jsSplit_cons]
    cases hs : jsSplit sep r with
    | nil => exact absurd hs (jsSplit_ne_nil sep r)
    | cons h t => simp
  | cons a A ih =>
    have ha : a ≠ sep := hA a (List.mem_cons_self a A)
    have hA2 : ∀ c ∈ A, c ≠ sep := fun c hc => hA c (List.mem_cons_of_mem a hc)
    show jsSplit sep (a :: (A ++ sep :: r)) = (a :: A) :: jsSplit sep r
    rw [jsSplit_cons, ih hA2]
    simp [ha]

theorem jsJoin_jsSplit (sep : Char) (s : JSStr) :
    jsJoin sep (jsSplit sep s) = s := by
  induction s with
  | nil => rfl
  | cons c rest ih =>
    cases hs : jsSplit sep rest with
    | nil => exact absurd hs (jsSplit_ne_nil sep rest)
    | cons h t =>
      rw [hs] at ih
      have hstep : jsSplit sep (c :: rest) =
          if c = sep then [] :: h :: t else (c :: h) :: t := by
        unfold jsSplit
        rw [hs]
      rw [hstep]
      by_cases hc : c = sep
      · rw [if_pos hc, hc]
        have hjoin : jsJoin sep ([] :: h :: t) =
            [] ++ sep :: jsJoin sep (h :: t) := rfl
        rw [hjoin, List.nil_append, ih]
      · rw [if_neg hc]
        cases t with
        | nil =>
          have hjoin : jsJoin sep [c :: h] = c :: h := rfl
          rw [hjoin, ← ih]
          rfl
        | cons u t2 =>
          have hjoin : jsJoin sep ((c :: h) :: u :: t2) =
              (c :: h) ++ sep :: jsJoin sep (u :: t2) := rfl
          have hjoin2 : jsJoin sep (h :: u :: t2) =
              h ++ sep :: jsJoin sep (u :: t2) := rfl
          rw [hjoin2] at ih
          rw [hjoin, ← ih]
          rfl

/-- The `DTSTART:value` line stores exactly the raw value (even one
containing further colons) in the record's `dtstart` field. -/
theorem applyKV_dtstart (r : ICSRecord) (s : JSStr) :
    applyKV r ("DTSTART:".data ++ s) = { r with dtstart := some s } := by
  have heq : "DTSTART:".data ++ s = "DTSTART".data ++ ':' :: s := rfl
  have hnil : (jsSplit ':' s).isEmpty = false := by
    simp [List.isEmpty_iff, jsSplit_ne_nil ':' s]
  have hkey : (jsSplit ';' ("DTSTART".data)).headD ([] : JSStr) =
      "DTSTART".data := by decide
  simp only [heq, applyKV,
    jsSplit_cons_sep_free ':' "DTSTART".data s (by decide), hnil,
    Bool.false_eq_true, if_false, jsJoin_jsSplit, hkey]
  simp

theorem stepLine_dtstart (now : LocalDateTime) (events : List ParsedEvent)
    (r : ICSRecord) (s : JSStr) :
    stepLine now (events, some r) ("DTSTART:".data ++ s) =
      (events, some { r with dtstart := some s }) := by
  have hBEGIN : ("DTSTART:".data ++ s) ≠ "BEGIN:VEVENT".data :=
    fun h => (by decide : ('D' : Char) ≠ 'B')
      (congrArg (fun l => l.headD ' ') h)
  have hEND : ("DTSTART:".data ++ s) ≠ "END:VEVENT".data :=
    fun h => (by decide : ('D' : Char) ≠ 'E')
      (congrArg (fun l => l.headD ' ') h)
  have hColon : ("DTSTART:".data ++ s).contains ':' = true := by
    rw [List.elem_iff]
    exact List.mem_append_left s (by decide)
  unfold stepLine
  rw [if_neg hBEGIN, if_neg hEND]
  simp only [hColon, if_true]
  rw [applyKV_dtstart]

/-- A minimal `VEVENT` block with any non-empty start value yields exactly
one event, built from the accumulated record — the push condition in
`_parseICSContent` checks only that summary and start are present, not
that the start value is well-formed. -/
theorem parseICSContentLines_sample (now : LocalDateTime) (s : JSStr)
    (hne : s ≠ []) :
    parseICSContentLines now
      ["BEGIN:VEVENT".data, "SUMMARY:Test".data, "DTSTART:".data ++ s,
        "END:VEVENT".data] =
      [processICSEvent now
        { summary := some "Test".data, dtstart := some s }] := by
  unfold parseICSContentLines
  rw [List.foldl_cons, List.foldl_cons, List.foldl_cons, List.foldl_cons,
    List.foldl_nil]
  rw [show stepLine now ([], none) "BEGIN:VEVENT".data = ([], some {})
    from rfl]
  rw [show stepLine now ([], some {}) "SUMMARY:Test".data =
    ([], some { summary := some "Test".data }) from rfl]
  rw [stepLine_dtstart now [] { summary := some "Test".data } s]
  have hend : stepLine now
      ([], some { summary := some "Test".data, dtstart := some s })
      "END:VEVENT".data =
      ([processICSEvent now
        { summary := some "Test".data, dtstart := some s }], none) := by
    unfold stepLine
    rw [if_neg (by decide), if_pos rfl]
    have htr : (truthy (some "Test".data) &&
        truthy (some s)) = true := by
      simp [truthy, List.isEmpty_iff, hne]
    show (if (truthy (some "Test".data) && truthy (some s)) = true
        then ([] : List ParsedEvent) ++ [processICSEvent now
          { summary := some "Test".data, dtstart := some s }]
        else [], (none : Option ICSRecord)) = _
    rw [if_pos htr, List.nil_append]
  rw [hend]

/-- C10: `_parseICSDateTime` is total — a start value that is neither
8 characters long nor contains a `T` falls back to the current clock — and
a record carrying such a present-but-malformed start value is still turned
into an Event (with `start` set to the parse-time clock) by
`_parseICSContent`, not dropped. -/
theorem parseICS_malformed_total (now : LocalDateTime) (s : JSStr)
    (h8 : s.length ≠ 8) (hT : s.contains 'T' = false) (hne : s ≠ []) :
    parseICSDateTime now s = some now ∧
    parseICSContentLines now
        ["BEGIN:VEVENT".data, "SUMMARY:Test".data, "DTSTART:".data ++ s,
          "END:VEVENT".data] =
      [processICSEvent now
        { summary := some "Test".data, dtstart := some s }] ∧
    (processICSEvent now
        { summary := some "Test".data, dtstart := some s }).startTime =
      some now := by
  have hp : parseICSDateTime now s = some now := by
    unfold parseICSDateTime
    rw [if_neg h8, if_neg (by rw [hT]; exact Bool.false_ne_true)]
  exact ⟨hp, parseICSContentLines_sample now s hne, hp⟩

/-- C10 witness: the malformed start value `garbage!!` is parsed to the
current clock and its record still yields an event. -/
theorem parseICS_malformed_total_witness :
    parseICSDateTime ⟨2025, 5, 15, 10, 30, 0⟩ "garbage!!".data =
      some ⟨2025, 5, 15, 10, 30, 0⟩ ∧
    parseICSContentLines ⟨2025, 5, 15, 10, 30, 0⟩
        ["BEGIN:VEVENT".data, "SUMMARY:Test".data,
          "DTSTART:".data ++ "garbage!!".data, "END:VEVENT".data] =
      [processICSEvent ⟨2025, 5, 15, 10, 30, 0⟩
        { summary := some "Test".data, dtstart := some "garbage!!".data }] ∧
    (processICSEvent ⟨2025, 5, 15, 10, 30, 0⟩
        { summary := some "Test".data,
          dtstart := some "garbage!!".data }).startTime =
      some ⟨2025, 5, 15, 10, 30, 0⟩ :=
  parseICS_malformed_total ⟨2025, 5, 15, 10, 30, 0⟩ "garbage!!".data
    (by decide) (by decide) (by decide)

end AtAGlance
